import Mathlib

/-!
Shallow embedding of `FVNavStokesPredictor_p.C` (Rhie-Chow momentum
predictor kernel): boundary classification, residual skip predicate,
per-thread Rhie-Chow coefficient cache, the boundary branch of the
coefficient calculator, and the face-velocity interpolation.

Scalars are modelled as real numbers (the source uses differentiable
reals whose value component is a double); vectors are `Fin 3 → ℝ`
mirroring `libMesh::VectorValue`.  External collaborators (mesh data,
functor evaluations, interpolation weights from `Moose::FV`) enter as
fields of the face records, exactly as the source receives them.
-/

set_option linter.unusedVariables false

noncomputable section

namespace FVPred

/-- Three-component vector, mirroring `libMesh::VectorValue<ADReal>`. -/
abbrev Vec3 := Fin 3 → ℝ

/-- Dot product of two vectors, mirroring `VectorValue::operator*`. -/
def dotV (a b : Vec3) : ℝ := a 0 * b 0 + a 1 * b 1 + a 2 * b 2

/-- Euclidean norm, mirroring `VectorValue::norm()`. -/
def vnorm (a : Vec3) : ℝ := Real.sqrt (dotV a a)

/-! ## Coefficient cache (`rcCoeff` / `clearRCCoeffs`)

The source keeps `_rc_a_coeffs : map (MooseApp*) → vector over threads of
(map (Elem*) → VectorValue<ADReal>)`.  We model one app's structure: a
per-thread association list from element identity to coefficient vector.
`rcCoeff` looks the element up and, on a miss, inserts the value of the
calculator (`my_map.emplace(&elem, coeffCalculator(elem))`); the
calculator is passed as a function argument because its result depends on
the current solution state. -/

/-- One thread's cache slice, modelling `unordered_map<const Elem*, VectorValue>`. -/
abbrev RCCache := List (ℕ × Vec3)

/-- Lookup, modelling `my_map.find(&elem)`. -/
def cacheFind : RCCache → ℕ → Option Vec3
  | [], _ => none
  | (k, v) :: rest, e => if k = e then some v else cacheFind rest e

/-- `rcCoeff` for a single thread slice: return the memoized value on a
hit; on a miss compute via the calculator and insert. -/
def rcCoeff (calcF : ℕ → Vec3) (c : RCCache) (e : ℕ) : Vec3 × RCCache :=
  match cacheFind c e with
  | some v => (v, c)
  | none => (calcF e, (e, calcF e) :: c)

/-- The vector of per-thread cache slices (`it->second`). -/
abbrev ThreadCaches := ℕ → RCCache

/-- `rcCoeff` at thread `tid`: operates on that thread's slice only. -/
def rcCoeffT (calcF : ℕ → Vec3) (cs : ThreadCaches) (tid e : ℕ) :
    Vec3 × ThreadCaches :=
  let r := rcCoeff calcF (cs tid) e
  (r.1, fun t => if t = tid then r.2 else cs t)

/-- `clearRCCoeffs`: `it->second[_tid].clear()` — empties the calling
thread's slice and touches no other thread's slice. -/
def clearRCCoeffs (cs : ThreadCaches) (tid : ℕ) : ThreadCaches :=
  fun t => if t = tid then [] else cs t

/-- Claim C7: within one pass, a first `rcCoeff` miss computes via the
calculator; a second lookup for the same cell returns the identical
memoized value without consulting the calculator (`calcG` is arbitrary)
and leaves the cache unchanged; `clearRCCoeffs` wipes all entries of the
calling thread and no entries of any other thread; after a clear the next
lookup recomputes from scratch via the current calculator. -/
theorem rcCoeff_cache_spec (calcF calcG : ℕ → Vec3) (cs : ThreadCaches)
    (tid e : ℕ) :
    (cacheFind (cs tid) e = none → (rcCoeffT calcF cs tid e).1 = calcF e)
    ∧ (rcCoeffT calcG (rcCoeffT calcF cs tid e).2 tid e).1
        = (rcCoeffT calcF cs tid e).1
    ∧ (rcCoeffT calcG (rcCoeffT calcF cs tid e).2 tid e).2
        = (rcCoeffT calcF cs tid e).2
    ∧ clearRCCoeffs cs tid tid = []
    ∧ (∀ t, t ≠ tid → clearRCCoeffs cs tid t = cs t)
    ∧ (rcCoeffT calcG (clearRCCoeffs (rcCoeffT calcF cs tid e).2 tid) tid e).1
        = calcG e := by
  refine ⟨?_, ?_, ?_, ?_, ?_, ?_⟩
  · intro h
    simp [rcCoeffT, rcCoeff, h]
  · cases h : cacheFind (cs tid) e with
    | some v => simp [rcCoeffT, rcCoeff, h]
    | none => simp [rcCoeffT, rcCoeff, h, cacheFind]
  · funext t
    by_cases ht : t = tid
    · cases h : cacheFind (cs tid) e with
      | some v => simp [rcCoeffT, rcCoeff, h, ht]
      | none => simp [rcCoeffT, rcCoeff, h, ht, cacheFind]
    · cases h : cacheFind (cs tid) e with
      | some v => simp [rcCoeffT, rcCoeff, h, ht]
      | none => simp [rcCoeffT, rcCoeff, h, ht, cacheFind]
  · simp [clearRCCoeffs]
  · intro t ht
    simp [clearRCCoeffs, ht]
  · simp [rcCoeffT, rcCoeff, clearRCCoeffs, cacheFind]

/-- Example calculator used by the witness. -/
def exCalc : ℕ → Vec3 := fun _ _ => 1

/-- Second example calculator (different values) used by the witness. -/
def exCalc2 : ℕ → Vec3 := fun _ _ => 2

/-- Empty thread caches used by the witness. -/
def exCS : ThreadCaches := fun _ => []

/-- Witness for C7 at a concrete cache state, thread and cell. -/
theorem rcCoeff_cache_spec_witness :
    (rcCoeffT exCalc exCS 0 7).1 = exCalc 7
    ∧ clearRCCoeffs exCS 0 1 = exCS 1 := by
  have h := rcCoeff_cache_spec exCalc exCalc2 exCS 0 7
  exact ⟨h.1 rfl, h.2.2.2.2.1 1 (by decide)⟩

/-! ## Boundary classification state and `setupFlowBoundaries`

`initialSetup` calls `setupFlowBoundaries(bnd_id)` per connected boundary.
That routine queries the warehouse for the `INSFVFlowBC` objects active on
the tag; we model that query result as the list `bcs`, each entry carrying
whether the object is of the `INSFVFullyDevelopedFlowBC` subtype
(`dynamic_cast` succeeds). -/

/-- A flow boundary-condition object: `isFD` records whether the
`dynamic_cast<INSFVFullyDevelopedFlowBC *>` succeeds on it. -/
structure FlowBC where
  isFD : Bool

/-- The boundary-id sets the kernel accumulates during setup. -/
structure BndSets where
  noSlipWall : List ℕ
  slipWall : List ℕ
  flow : List ℕ
  fullyDeveloped : List ℕ
  symmetry : List ℕ
  allBnd : List ℕ

/-- `setupFlowBoundaries(bnd_id)`: if any flow BC is active on the tag,
insert it into `_flow_boundaries` and `_all_boundaries`; insert into
`_fully_developed_flow_boundaries` exactly when the front BC is of the
fully-developed subtype. -/
def setupFlowBoundaries (bcs : List FlowBC) (bid : ℕ) (s : BndSets) :
    BndSets :=
  match bcs with
  | [] => s
  | b :: _ =>
    { s with
      flow := bid :: s.flow
      allBnd := bid :: s.allBnd
      fullyDeveloped := if b.isFD then bid :: s.fullyDeveloped
                        else s.fullyDeveloped }

/-- The debug `mooseAssert` pair in `setupFlowBoundaries`: if the front BC
is fully developed every flow BC must be, otherwise none may be.  `true`
means no assertion fires. -/
def flowMixAssertOk (bcs : List FlowBC) : Bool :=
  match bcs with
  | [] => true
  | b :: _ =>
    if b.isFD then bcs.all (fun x => x.isFD)
    else bcs.all (fun x => !x.isFD)

/-- Claim C6: a tag is classified as a flow boundary iff some flow BC is
active on it; when the debug assertions pass, the tag is additionally
fully-developed-flow iff every flow BC on it is of the fully-developed
subtype; a tag mixing fully-developed and non-fully-developed flow BCs
makes the assertion fail. -/
theorem setupFlowBoundaries_spec (bcs : List FlowBC) (bid : ℕ) (s : BndSets)
    (hf : bid ∉ s.flow) (hd : bid ∉ s.fullyDeveloped) :
    ((bid ∈ (setupFlowBoundaries bcs bid s).flow) ↔ bcs ≠ [])
    ∧ (flowMixAssertOk bcs = true →
        ((bid ∈ (setupFlowBoundaries bcs bid s).fullyDeveloped)
          ↔ (bcs ≠ [] ∧ bcs.all (fun x => x.isFD) = true)))
    ∧ (∀ b1 ∈ bcs, ∀ b2 ∈ bcs, b1.isFD = true → b2.isFD = false →
        flowMixAssertOk bcs = false) := by
  refine ⟨?_, ?_, ?_⟩
  · cases bcs with
    | nil => simp [setupFlowBoundaries, hf]
    | cons b rest => simp [setupFlowBoundaries]
  · intro hok
    cases bcs with
    | nil => simp [setupFlowBoundaries, hd]
    | cons b rest =>
      by_cases hb : b.isFD
      · have hall : (b :: rest).all (fun x => x.isFD) = true := by
          simpa [flowMixAssertOk, hb] using hok
        simp [setupFlowBoundaries, hb, hall]
      · have hnall : ¬((b :: rest).all (fun x => x.isFD) = true) := by
          simp [List.all_cons, hb]
        simp [setupFlowBoundaries, hb, hd, hnall]
  · intro b1 hb1 b2 hb2 h1 h2
    cases bcs with
    | nil => simp at hb1
    | cons b rest =>
      by_cases hb : b.isFD
      · have : ¬((b :: rest).all (fun x => x.isFD) = true) := by
          intro hall
          have := List.all_eq_true.mp hall b2 hb2
          simp [h2] at this
        simpa [flowMixAssertOk, hb] using this
      · have : ¬((b :: rest).all (fun x => !x.isFD) = true) := by
          intro hall
          have := List.all_eq_true.mp hall b1 hb1
          simp [h1] at this
        simpa [flowMixAssertOk, hb] using this

/-- Example flow-BC list (all fully developed) used by the C6 witness. -/
def exFlowBCs : List FlowBC := [⟨true⟩, ⟨true⟩]

/-- Empty boundary sets, the state at the start of `initialSetup`. -/
def exEmptySets : BndSets := ⟨[], [], [], [], [], []⟩

/-- Witness for C6 at a concrete BC list, tag and setup state. -/
theorem setupFlowBoundaries_spec_witness :
    (3 ∈ (setupFlowBoundaries exFlowBCs 3 exEmptySets).flow)
    ∧ (3 ∈ (setupFlowBoundaries exFlowBCs 3 exEmptySets).fullyDeveloped) := by
  have h := setupFlowBoundaries_spec exFlowBCs 3 exEmptySets
    (by simp [exEmptySets]) (by simp [exEmptySets])
  refine ⟨h.1.mpr (by simp [exFlowBCs]), ?_⟩
  exact (h.2.1 (by simp [flowMixAssertOk, exFlowBCs])).mpr
    (by simp [exFlowBCs])

/-! ## Residual skip predicate (`skipForBoundary`) -/

/-- The face data `skipForBoundary` consults: whether the face is a
boundary face, whether `_var.getFluxBCs(fi).first` is non-null, the
face's boundary ids, and whether `_var.getDirichletBC(fi).first` is
non-null. -/
structure SkipFace where
  onBoundary : Bool
  hasFluxBC : Bool
  boundaryIDs : List ℕ
  hasDirichletBC : Bool

/-- `skipForBoundary`: interior faces are never skipped; a face with a
flux BC is skipped; a flow-boundary face (without flux BC) is not
skipped; otherwise skip unless a Dirichlet BC is present. -/
def skipForBoundary (s : BndSets) (fi : SkipFace) : Bool :=
  if !fi.onBoundary then false
  else if fi.hasFluxBC then true
  else if fi.boundaryIDs.any (fun b => decide (b ∈ s.flow)) then false
  else !fi.hasDirichletBC

/-- Follows the claim's words only (for comparison with the source): skip
exactly the boundary faces that are neither flow boundaries nor carry a
substitute flux or Dirichlet condition. -/
def claimSkipPredicate (s : BndSets) (fi : SkipFace) : Bool :=
  fi.onBoundary
    && !(fi.boundaryIDs.any (fun b => decide (b ∈ s.flow)))
    && !fi.hasFluxBC
    && !fi.hasDirichletBC

/-- Boundary sets for the C3 counterexample: tag 1 is a flow boundary. -/
def exSetsC3 : BndSets := ⟨[], [], [1], [], [], [1]⟩

/-- A flow-boundary face that also carries a substitute flux BC. -/
def exFaceC3 : SkipFace := ⟨true, true, [1], false⟩

/-- Counterexample to C3: a boundary face carrying a substitute flux BC is
skipped by the source even though the claim's predicate excludes it (it
is a flow boundary and carries a flux condition). -/
theorem skipForBoundary_claim_false :
    skipForBoundary exSetsC3 exFaceC3 = true
    ∧ claimSkipPredicate exSetsC3 exFaceC3 = false := by
  constructor <;> rfl

/-- Claim C3 (amended): the skip predicate holds exactly on boundary faces
that either carry a substitute flux condition, or are neither flow
boundaries nor carry a Dirichlet condition.  In particular interior faces
are never skipped, and a wall face with no substitute flux or Dirichlet
condition is skipped (zero residual contribution). -/
theorem skipForBoundary_spec (s : BndSets) (fi : SkipFace) :
    (skipForBoundary s fi = true ↔
      fi.onBoundary = true ∧
        (fi.hasFluxBC = true ∨
          ((∀ b ∈ fi.boundaryIDs, b ∉ s.flow)
            ∧ fi.hasDirichletBC = false)))
    ∧ (fi.onBoundary = false → skipForBoundary s fi = false)
    ∧ (fi.onBoundary = true → fi.hasFluxBC = false →
        (∀ b ∈ fi.boundaryIDs, b ∉ s.flow) → fi.hasDirichletBC = false →
        skipForBoundary s fi = true) := by
  refine ⟨?_, ?_, ?_⟩
  · unfold skipForBoundary
    cases hob : fi.onBoundary <;> cases hfl : fi.hasFluxBC <;>
      cases hdi : fi.hasDirichletBC <;>
        simp [hob, hfl, hdi, List.any_eq_true]
  · intro h
    simp [skipForBoundary, h]
  · intro hob hfl hflow hdi
    have hany : fi.boundaryIDs.any (fun b => decide (b ∈ s.flow)) = false := by
      simp [List.any_eq_false]
      exact fun b hb => hflow b hb
    simp [skipForBoundary, hob, hfl, hdi, hany]

/-- A wall face (tag 2, not a flow boundary) without flux or Dirichlet BC. -/
def exFaceC3w : SkipFace := ⟨true, false, [2], false⟩

/-- Witness for the amended C3 at a concrete wall face: it is skipped. -/
theorem skipForBoundary_spec_witness :
    skipForBoundary exSetsC3 exFaceC3w = true := by
  exact (skipForBoundary_spec exSetsC3 exFaceC3w).2.2 rfl rfl
    (by simp [exFaceC3w, exSetsC3]) rfl

/-! ## Coefficient calculator, boundary-face branch (`coeffCalculator`)

The `action_functor` inside `coeffCalculator`, on a boundary face, walks
the face's boundary ids and, for each id, tests membership in
`_no_slip_wall_boundaries`, `_slip_wall_boundaries`, `_flow_boundaries`
and `_symmetry_boundaries` in that order, returning (having added the
matching contribution to `coeff`) at the first match; if no id matches
any set it raises a `mooseError` naming the kernel object and
`*fi->boundaryIDs().begin()`.  Boundary faces always have
`elem_has_info == true`, so `normal = fi->normal()` and
`rc_centroid = fi->elemCentroid()`. -/

/-- The four recognized boundary categories of the calculator. -/
inductive BCat
  | noSlipWall
  | slipWall
  | flow
  | symmetry
deriving DecidableEq

/-- The data of one boundary face as the action functor sees it:
geometry, the functor evaluations `face_mu`/`face_rho` at the face, the
boundary face velocity assembled from `getBoundaryFaceValue`, and the
elem-side weight `advection_coeffs.first` returned by the external
`Moose::FV::interpCoeffs` call. -/
structure BFace where
  boundaryIDs : List ℕ
  normal : Vec3
  surfaceVector : Vec3
  faceArea : ℝ
  faceCentroid : Vec3
  elemCentroid : Vec3
  faceMu : ℝ
  faceRho : ℝ
  faceVelocity : Vec3
  advWeight : ℝ

/-- Category test for one boundary id, in the precedence order of the
source's `if` chain. -/
def tagCategory (s : BndSets) (b : ℕ) : Option BCat :=
  if b ∈ s.noSlipWall then some .noSlipWall
  else if b ∈ s.slipWall then some .slipWall
  else if b ∈ s.flow then some .flow
  else if b ∈ s.symmetry then some .symmetry
  else none

/-- Scan of the face's boundary ids: first id matching a category wins. -/
def findCategory (s : BndSets) : List ℕ → Option (ℕ × BCat)
  | [] => none
  | b :: rest =>
    match tagCategory s b with
    | some c => some (b, c)
    | none => findCategory s rest

/-- The contribution the matched category adds to `coeff`, component by
component over `make_range(_dim)` (components at or above the mesh
dimension are untouched, i.e. zero). -/
def catContrib (s : BndSets) (dim : ℕ) (fd : BFace) (b : ℕ) :
    BCat → Vec3
  | .noSlipWall => fun i =>
      if (i : ℕ) < dim then
        fd.faceMu * vnorm fd.surfaceVector
          / |dotV (fd.faceCentroid - fd.elemCentroid) fd.normal|
          * (1 - fd.normal i * fd.normal i)
      else 0
  | .slipWall => fun _ => 0
  | .flow => fun i =>
      if (i : ℕ) < dim then
        fd.faceRho * dotV fd.faceVelocity fd.surfaceVector * fd.advWeight
          + (if b ∈ s.fullyDeveloped then 0
             else fd.faceMu * vnorm fd.surfaceVector
                    / vnorm (fd.faceCentroid - fd.elemCentroid))
      else 0
  | .symmetry => fun i =>
      if (i : ℕ) < dim then
        2 * fd.faceMu * vnorm fd.surfaceVector
          / |dotV (fd.faceCentroid - fd.elemCentroid) fd.normal|
          * (fd.normal i * fd.normal i)
      else 0

/-- The payload of the `mooseError` raised when no boundary id resolves:
the kernel object's name and the face's first boundary id. -/
structure PredErr where
  objectName : String
  sideset : ℕ
deriving DecidableEq

/-- Boundary-face branch of `coeffCalculator` for element `elem`: either
the single matched category's contribution, or the fatal error.  The
element is in scope (as in the source's lambda capture) but the boundary
branch never reads it. -/
def coeffCalculatorBoundaryFace (objName : String) (elem : ℕ)
    (s : BndSets) (dim : ℕ) (fd : BFace) : Except PredErr Vec3 :=
  match findCategory s fd.boundaryIDs with
  | some (b, c) => .ok (catContrib s dim fd b c)
  | none => .error ⟨objName, fd.boundaryIDs.headD 0⟩

/-! ### Concrete geometry used by the boundary-branch witnesses -/

/-- The unit vector along the first coordinate axis. -/
def e0 : Vec3 := fun i => if i = 0 then 1 else 0

/-- The zero vector (used as an element centroid). -/
def zv : Vec3 := fun _ => 0

/-- A face centroid half a unit along the first axis. -/
def half0 : Vec3 := fun i => if i = 0 then (1 / 2 : ℝ) else 0

/-- The axis vector has Euclidean norm one. -/
theorem vnorm_e0 : vnorm e0 = 1 := by
  have h : dotV e0 e0 = 1 := by
    simp [dotV, e0]
  rw [vnorm, h, Real.sqrt_one]

/-- Boundary sets used by the boundary-branch witnesses: tag 4 is a
no-slip wall, tag 5 a slip wall, tag 6 a flow boundary, tag 7 a symmetry
boundary; no fully-developed-flow tags. -/
def exSetsW : BndSets := ⟨[4], [5], [6], [], [7], [4, 5, 6, 7]⟩

/-- Name of the example kernel object. -/
def exName : String := "predictor"

/-- A witness boundary face with axis-aligned unit normal, unit face
area, and the face centroid half a unit from the cell centroid; the
boundary ids are supplied per witness via a structure update. -/
def exBFace : BFace :=
  { boundaryIDs := [7]
    normal := e0
    surfaceVector := e0
    faceArea := 1
    faceCentroid := half0
    elemCentroid := zv
    faceMu := 1
    faceRho := 1
    faceVelocity := e0
    advWeight := 1 }

/-! ### Claims about the boundary-face branch -/

/-- Claim C2: on a symmetry boundary the calculator adds, per component
`i` below the mesh dimension, `2 ⬝ μ_f ⬝ A_f / |(x_f − x_C) ⬝ n| ⬝ n_i²`;
the contribution vanishes on every component with `n_i = 0`; and no
advective contribution enters: the result is unchanged under arbitrary
changes of the face density and face velocity. -/
theorem coeffCalculator_symmetry (objName : String) (el : ℕ) (s : BndSets)
    (dim : ℕ) (fd : BFace) (b : ℕ)
    (hfind : findCategory s fd.boundaryIDs = some (b, .symmetry))
    (hA : vnorm fd.surfaceVector = fd.faceArea) :
    ∃ v, coeffCalculatorBoundaryFace objName el s dim fd = .ok v
      ∧ (∀ i : Fin 3, (i : ℕ) < dim →
          v i = 2 * fd.faceMu * fd.faceArea
              / |dotV (fd.faceCentroid - fd.elemCentroid) fd.normal|
              * (fd.normal i * fd.normal i))
      ∧ (∀ i : Fin 3, fd.normal i = 0 → v i = 0)
      ∧ (∀ r w, coeffCalculatorBoundaryFace objName el s dim
            { fd with faceRho := r, faceVelocity := w } = .ok v) := by
  refine ⟨catContrib s dim fd b .symmetry, ?_, ?_, ?_, ?_⟩
  · simp [coeffCalculatorBoundaryFace, hfind]
  · intro i hi
    simp [catContrib, hi, hA]
  · intro i hn
    by_cases hi : (i : ℕ) < dim <;> simp [catContrib, hi, hn]
  · intro r w
    simp [coeffCalculatorBoundaryFace, hfind, catContrib]

/-- Witness for C2 at a concrete symmetry face with axis-aligned normal. -/
theorem coeffCalculator_symmetry_witness :
    findCategory exSetsW exBFace.boundaryIDs = some (7, .symmetry)
    ∧ vnorm exBFace.surfaceVector = exBFace.faceArea
    ∧ ∃ v, coeffCalculatorBoundaryFace exName 1 exSetsW 3 exBFace = .ok v
        ∧ (∀ i : Fin 3, (i : ℕ) < 3 →
            v i = 2 * exBFace.faceMu * exBFace.faceArea
                / |dotV (exBFace.faceCentroid - exBFace.elemCentroid)
                      exBFace.normal|
                * (exBFace.normal i * exBFace.normal i))
        ∧ (∀ i : Fin 3, exBFace.normal i = 0 → v i = 0)
        ∧ (∀ r w, coeffCalculatorBoundaryFace exName 1 exSetsW 3
              { exBFace with faceRho := r, faceVelocity := w } = .ok v) := by
  have h1 : findCategory exSetsW exBFace.boundaryIDs = some (7, .symmetry) := by
    decide
  have h2 : vnorm exBFace.surfaceVector = exBFace.faceArea := by
    simpa [exBFace] using vnorm_e0
  exact ⟨h1, h2, coeffCalculator_symmetry exName 1 exSetsW 3 exBFace 7 h1 h2⟩

/-- Claim C4: on a no-slip wall boundary the calculator adds, per
component `i` below the mesh dimension,
`μ_f ⬝ A_f / |(x_f − x_C) ⬝ n| ⬝ (1 − n_i²)`; no advective contribution
enters (the result is unchanged under arbitrary face density and
velocity); and for a normal that is exactly a coordinate axis the
component aligned with that axis receives exactly zero. -/
theorem coeffCalculator_noSlipWall (objName : String) (el : ℕ) (s : BndSets)
    (dim : ℕ) (fd : BFace) (b : ℕ)
    (hfind : findCategory s fd.boundaryIDs = some (b, .noSlipWall))
    (hA : vnorm fd.surfaceVector = fd.faceArea) :
    ∃ v, coeffCalculatorBoundaryFace objName el s dim fd = .ok v
      ∧ (∀ i : Fin 3, (i : ℕ) < dim →
          v i = fd.faceMu * fd.faceArea
              / |dotV (fd.faceCentroid - fd.elemCentroid) fd.normal|
              * (1 - fd.normal i * fd.normal i))
      ∧ (∀ r w, coeffCalculatorBoundaryFace objName el s dim
            { fd with faceRho := r, faceVelocity := w } = .ok v)
      ∧ (∀ i : Fin 3, (fd.normal i = 1 ∨ fd.normal i = -1) → v i = 0) := by
  refine ⟨catContrib s dim fd b .noSlipWall, ?_, ?_, ?_, ?_⟩
  · simp [coeffCalculatorBoundaryFace, hfind]
  · intro i hi
    simp [catContrib, hi, hA]
  · intro r w
    simp [coeffCalculatorBoundaryFace, hfind, catContrib]
  · intro i hn
    by_cases hi : (i : ℕ) < dim
    · rcases hn with h | h <;> simp [catContrib, hi, h]
    · simp [catContrib, hi]

/-- The witness no-slip wall face: same geometry, boundary id 4. -/
def exBFaceW : BFace := { exBFace with boundaryIDs := [4] }

/-- Witness for C4 at a concrete axis-normal wall face. -/
theorem coeffCalculator_noSlipWall_witness :
    findCategory exSetsW exBFaceW.boundaryIDs = some (4, .noSlipWall)
    ∧ vnorm exBFaceW.surfaceVector = exBFaceW.faceArea
    ∧ ∃ v, coeffCalculatorBoundaryFace exName 1 exSetsW 3 exBFaceW = .ok v
        ∧ (∀ i : Fin 3, (i : ℕ) < 3 →
            v i = exBFaceW.faceMu * exBFaceW.faceArea
                / |dotV (exBFaceW.faceCentroid - exBFaceW.elemCentroid)
                      exBFaceW.normal|
                * (1 - exBFaceW.normal i * exBFaceW.normal i))
        ∧ (∀ r w, coeffCalculatorBoundaryFace exName 1 exSetsW 3
              { exBFaceW with faceRho := r, faceVelocity := w } = .ok v)
        ∧ (∀ i : Fin 3, (exBFaceW.normal i = 1 ∨ exBFaceW.normal i = -1) →
            v i = 0) := by
  have h1 : findCategory exSetsW exBFaceW.boundaryIDs
      = some (4, .noSlipWall) := by decide
  have h2 : vnorm exBFaceW.surfaceVector = exBFaceW.faceArea := by
    simpa [exBFaceW, exBFace] using vnorm_e0
  exact ⟨h1, h2, coeffCalculator_noSlipWall exName 1 exSetsW 3 exBFaceW 4 h1 h2⟩

/-- Claim C5: on a flow boundary the advective contribution is
`ρ_f ⬝ (u_b ⬝ S_f) ⬝ w_C` with `w_C` the cell-side advected-interpolation
weight; the diffusive term `μ_f ⬝ A_f / ‖x_f − x_C‖` is added exactly when
the boundary is not fully-developed-flow; and the total is identical for
every component below the mesh dimension. -/
theorem coeffCalculator_flow (objName : String) (el : ℕ) (s : BndSets)
    (dim : ℕ) (fd : BFace) (b : ℕ)
    (hfind : findCategory s fd.boundaryIDs = some (b, .flow))
    (hA : vnorm fd.surfaceVector = fd.faceArea) :
    ∃ v, coeffCalculatorBoundaryFace objName el s dim fd = .ok v
      ∧ (∀ i : Fin 3, (i : ℕ) < dim →
          v i = fd.faceRho * dotV fd.faceVelocity fd.surfaceVector
                  * fd.advWeight
              + (if b ∈ s.fullyDeveloped then 0
                 else fd.faceMu * fd.faceArea
                        / vnorm (fd.faceCentroid - fd.elemCentroid)))
      ∧ (∀ i j : Fin 3, (i : ℕ) < dim → (j : ℕ) < dim → v i = v j) := by
  refine ⟨catContrib s dim fd b .flow, ?_, ?_, ?_⟩
  · simp [coeffCalculatorBoundaryFace, hfind]
  · intro i hi
    simp [catContrib, hi, hA]
  · intro i j hi hj
    simp [catContrib, hi, hj]

/-- The witness flow face: same geometry, boundary id 6. -/
def exBFaceF : BFace := { exBFace with boundaryIDs := [6] }

/-- Witness for C5 at a concrete flow-boundary face. -/
theorem coeffCalculator_flow_witness :
    findCategory exSetsW exBFaceF.boundaryIDs = some (6, .flow)
    ∧ vnorm exBFaceF.surfaceVector = exBFaceF.faceArea
    ∧ ∃ v, coeffCalculatorBoundaryFace exName 1 exSetsW 3 exBFaceF = .ok v
        ∧ (∀ i : Fin 3, (i : ℕ) < 3 →
            v i = exBFaceF.faceRho
                    * dotV exBFaceF.faceVelocity exBFaceF.surfaceVector
                    * exBFaceF.advWeight
                + (if 6 ∈ exSetsW.fullyDeveloped then 0
                   else exBFaceF.faceMu * exBFaceF.faceArea
                          / vnorm (exBFaceF.faceCentroid
                                    - exBFaceF.elemCentroid)))
        ∧ (∀ i j : Fin 3, (i : ℕ) < 3 → (j : ℕ) < 3 → v i = v j) := by
  have h1 : findCategory exSetsW exBFaceF.boundaryIDs = some (6, .flow) := by
    decide
  have h2 : vnorm exBFaceF.surfaceVector = exBFaceF.faceArea := by
    simpa [exBFaceF, exBFace] using vnorm_e0
  exact ⟨h1, h2, coeffCalculator_flow exName 1 exSetsW 3 exBFaceF 6 h1 h2⟩

/-- A boundary face whose only tag (9) resolves to no category at all. -/
def exBFaceU : BFace := { exBFace with boundaryIDs := [9] }

/-- Counterexample to C8: the fatal error raised for an unresolved
boundary face carries only the kernel object's name and the face's first
boundary id — two distinct cells produce literally identical errors, so
the error cannot identify the offending cell. -/
theorem coeffCalculator_error_no_cell :
    coeffCalculatorBoundaryFace exName 1 exEmptySets 3 exBFaceU
      = .error ⟨exName, 9⟩
    ∧ coeffCalculatorBoundaryFace exName 2 exEmptySets 3 exBFaceU
      = .error ⟨exName, 9⟩
    ∧ (1 : ℕ) ≠ 2 := by
  refine ⟨rfl, rfl, by decide⟩

/-- Claim C8 (amended): a boundary face whose tags resolve to none of the
recognized categories aborts with a descriptive fatal error identifying
the kernel object and the offending boundary (the face's first boundary
id); the offending cell is not part of the error. -/
theorem coeffCalculator_unresolved_error (objName : String) (el : ℕ)
    (s : BndSets) (dim : ℕ) (fd : BFace)
    (hfind : findCategory s fd.boundaryIDs = none) :
    coeffCalculatorBoundaryFace objName el s dim fd
      = .error ⟨objName, fd.boundaryIDs.headD 0⟩ := by
  simp [coeffCalculatorBoundaryFace, hfind]

/-- Witness for the amended C8 at a concrete unresolved face. -/
theorem coeffCalculator_unresolved_error_witness :
    findCategory exEmptySets exBFaceU.boundaryIDs = none
    ∧ coeffCalculatorBoundaryFace exName 5 exEmptySets 3 exBFaceU
        = .error ⟨exName, exBFaceU.boundaryIDs.headD 0⟩ := by
  have h1 : findCategory exEmptySets exBFaceU.boundaryIDs = none := by decide
  exact ⟨h1, coeffCalculator_unresolved_error exName 5 exEmptySets 3 exBFaceU h1⟩

/-- Unmatched prefixes of the boundary-id scan leave the result of
`findCategory` unchanged. -/
theorem findCategory_append (s : BndSets) (l1 : List ℕ) (b : ℕ)
    (l2 : List ℕ) (hl1 : ∀ a ∈ l1, tagCategory s a = none) :
    findCategory s (l1 ++ b :: l2) = findCategory s (b :: l2) := by
  induction l1 with
  | nil => rfl
  | cons a rest ih =>
    have ha : tagCategory s a = none := hl1 a (by simp)
    have hrest : ∀ x ∈ rest, tagCategory s x = none := by
      intro x hx
      exact hl1 x (by simp [hx])
    simp [findCategory, ha, ih hrest]

/-- Claim C10: on a boundary face the calculator applies exactly one
boundary-category contribution; the boundary ids are scanned in order —
if every id before `b` matches no category and `b` matches category `c`,
the result is `b`'s contribution for `c`, irrespective of any later ids —
and within one id the categories are tested in the precedence order
no-slip wall, slip wall, flow, symmetry. -/
theorem coeffCalculator_first_match (objName : String) (el : ℕ)
    (s : BndSets) (dim : ℕ) (fd : BFace) (l1 : List ℕ) (b : ℕ)
    (c : BCat) (l2 : List ℕ)
    (hids : fd.boundaryIDs = l1 ++ b :: l2)
    (hl1 : ∀ a ∈ l1, tagCategory s a = none)
    (hb : tagCategory s b = some c) :
    coeffCalculatorBoundaryFace objName el s dim fd
      = .ok (catContrib s dim fd b c)
    ∧ (b ∈ s.noSlipWall → c = .noSlipWall)
    ∧ (b ∉ s.noSlipWall → b ∈ s.slipWall → c = .slipWall)
    ∧ (b ∉ s.noSlipWall → b ∉ s.slipWall → b ∈ s.flow → c = .flow)
    ∧ (b ∉ s.noSlipWall → b ∉ s.slipWall → b ∉ s.flow → c = .symmetry) := by
  refine ⟨?_, ?_, ?_, ?_, ?_⟩
  · rw [coeffCalculatorBoundaryFace, hids, findCategory_append s l1 b l2 hl1]
    simp [findCategory, hb]
  · intro h1
    simp [tagCategory, h1] at hb
    exact hb.symm
  · intro h1 h2
    simp [tagCategory, h1, h2] at hb
    exact hb.symm
  · intro h1 h2 h3
    simp [tagCategory, h1, h2, h3] at hb
    exact hb.symm
  · intro h1 h2 h3
    by_cases h4 : b ∈ s.symmetry
    · simp [tagCategory, h1, h2, h3, h4] at hb
      exact hb.symm
    · simp [tagCategory, h1, h2, h3, h4] at hb

/-- A multi-tagged face: id 3 matches nothing, id 7 is a symmetry tag,
id 4 (a wall tag) comes after and must contribute nothing. -/
def exBFaceM : BFace := { exBFace with boundaryIDs := [3, 7, 4] }

/-- Witness for C10 at a concrete multi-tagged face: the symmetry tag 7
wins and the trailing wall tag 4 contributes nothing. -/
theorem coeffCalculator_first_match_witness :
    exBFaceM.boundaryIDs = [3] ++ 7 :: [4]
    ∧ tagCategory exSetsW 7 = some .symmetry
    ∧ coeffCalculatorBoundaryFace exName 1 exSetsW 3 exBFaceM
        = .ok (catContrib exSetsW 3 exBFaceM 7 .symmetry) := by
  have h0 : exBFaceM.boundaryIDs = [3] ++ 7 :: [4] := rfl
  have h1 : ∀ a ∈ [3], tagCategory exSetsW a = none := by decide
  have h2 : tagCategory exSetsW 7 = some .symmetry := by decide
  exact ⟨h0, h2,
    (coeffCalculator_first_match exName 1 exSetsW 3 exBFaceM [3] 7 .symmetry
      [4] h0 h1 h2).1⟩

/-! ## Face-velocity interpolation (`interpolate`)

`interpolate(m, v)` first handles boundary faces (boundary-condition face
values), then always computes the geometric average of the two cells'
velocities; in `rc` mode it additionally builds
`D = (volume × coord) / a` per cell (with `a` the cached Rhie-Chow
coefficient vector and `coord` the coordinate-system factor at the cell's
centroid), averages the two `D` vectors to the face with the same
geometric weights, and subtracts `D_face(i) ⬝ (∇p(i) − ∇p_unc(i))` per
component below the mesh dimension.  The external
`Moose::FV::interpolate(Average, …)` is the weighted mean
`g ⬝ x_elem + (1 − g) ⬝ x_neighbor` with the face's geometric weight `g`,
applied component-wise. -/

/-- The two interpolation modes of the kernel. -/
inductive InterpMethod
  | average
  | rc
deriving DecidableEq

/-- Geometric average interpolation to the face,
`Moose::FV::interpolate(InterpMethod::Average, …)` for one component. -/
def avgI (g a b : ℝ) : ℝ := g * a + (1 - g) * b

/-- The data `interpolate` reads for one face: boundary flag and
boundary-condition face velocity; geometric weight; the advecting
velocity functor evaluated from the element and neighbor sides; the
corrected and uncorrected face pressure gradients; cell volumes;
coordinate-system scale factors at the two centroids; and the cached
Rhie-Chow coefficient vectors `rcCoeff(*elem)` and `rcCoeff(*neighbor)`. -/
structure IFace where
  onBoundary : Bool
  boundaryVel : Vec3
  gC : ℝ
  velElem : Vec3
  velNbr : Vec3
  gradP : Vec3
  uncGradP : Vec3
  elemVolume : ℝ
  nbrVolume : ℝ
  coordElem : ℝ
  coordNbr : ℝ
  elemA : Vec3
  nbrA : Vec3

/-- `FVNavStokesPredictor_p::interpolate`. -/
def interpolateVel (m : InterpMethod) (dim : ℕ) (f : IFace) : Vec3 :=
  if f.onBoundary then f.boundaryVel
  else
    let v : Vec3 := fun i => avgI f.gC (f.velElem i) (f.velNbr i)
    match m with
    | .average => v
    | .rc =>
      let eVol := f.elemVolume * f.coordElem
      let nVol := f.nbrVolume * f.coordNbr
      let eD : Vec3 := fun i => if (i : ℕ) < dim then eVol / f.elemA i else 0
      let nD : Vec3 := fun i => if (i : ℕ) < dim then nVol / f.nbrA i else 0
      let fD : Vec3 := fun i => avgI f.gC (eD i) (nD i)
      fun i => if (i : ℕ) < dim
               then v i - fD i * (f.gradP i - f.uncGradP i)
               else v i

/-- Claim C1: on an interior face, Rhie-Chow interpolation returns, per
component below the mesh dimension, the average-mode result minus
`D_face(i) ⬝ (∇p(i) − ∇p_unc(i))`, where each cell's
`D(i) = volume ⬝ coord / a(i)` (volume pre-scaled by the
coordinate-system factor at that cell's centroid) and `D_face` is the
geometric average of the two cells' `D` vectors at the face. -/
theorem interpolate_rhieChow_formula (dim : ℕ) (f : IFace) (i : Fin 3)
    (hb : f.onBoundary = false) (hi : (i : ℕ) < dim) :
    interpolateVel .rc dim f i
      = interpolateVel .average dim f i
        - avgI f.gC (f.elemVolume * f.coordElem / f.elemA i)
            (f.nbrVolume * f.coordNbr / f.nbrA i)
          * (f.gradP i - f.uncGradP i) := by
  simp [interpolateVel, hb, hi]

/-- A concrete interior face used by the C1 and C9 witnesses. -/
def exIFace : IFace :=
  { onBoundary := false
    boundaryVel := zv
    gC := 1 / 2
    velElem := e0
    velNbr := half0
    gradP := e0
    uncGradP := half0
    elemVolume := 1
    nbrVolume := 2
    coordElem := 1
    coordNbr := 1
    elemA := e0
    nbrA := e0
    }

/-- Witness for C1 at a concrete interior face and component. -/
theorem interpolate_rhieChow_formula_witness :
    exIFace.onBoundary = false ∧ (0 : ℕ) < 2
    ∧ interpolateVel .rc 2 exIFace 0
        = interpolateVel .average 2 exIFace 0
          - avgI exIFace.gC
              (exIFace.elemVolume * exIFace.coordElem / exIFace.elemA 0)
              (exIFace.nbrVolume * exIFace.coordNbr / exIFace.nbrA 0)
            * (exIFace.gradP 0 - exIFace.uncGradP 0) := by
  exact ⟨rfl, by decide,
    interpolate_rhieChow_formula 2 exIFace 0 rfl (by decide)⟩

/-- Claim C9: on an interior face where the corrected and uncorrected
face pressure gradients coincide, Rhie-Chow interpolation returns exactly
the average-mode velocity vector. -/
theorem interpolate_rhieChow_degenerates (dim : ℕ) (f : IFace)
    (hb : f.onBoundary = false) (hp : f.gradP = f.uncGradP) :
    interpolateVel .rc dim f = interpolateVel .average dim f := by
  funext i
  by_cases hi : (i : ℕ) < dim <;> simp [interpolateVel, hb, hi, hp]

/-- The witness face with a matching (linear-pressure) gradient pair. -/
def exIFaceL : IFace := { exIFace with gradP := half0, uncGradP := half0 }

/-- Witness for C9 at a concrete interior face with equal gradients. -/
theorem interpolate_rhieChow_degenerates_witness :
    exIFaceL.onBoundary = false ∧ exIFaceL.gradP = exIFaceL.uncGradP
    ∧ interpolateVel .rc 2 exIFaceL = interpolateVel .average 2 exIFaceL := by
  exact ⟨rfl, rfl, interpolate_rhieChow_degenerates 2 exIFaceL rfl rfl⟩

end FVPred
